import Mathlib

/-!
Verification development for the `ClientModel.h` simulation core of the mix
IDE: transaction settings, the execution record log, the name/address
registry and the simulation controller.  Declarations present in the header
are embedded directly; member-function bodies absent from the header are
modelled from the specification and marked as such in their doc comments.
-/

/-- Qt string, embedded as a Lean string. -/
abbrev QString := String

/-- Ledger address (dev::Address), embedded as a natural number. -/
abbrev Address := Nat

/-- Sender secret key identity, embedded as a natural number. -/
abbrev Secret := Nat

/-- The modulus of the 256-bit unsigned integer type u256. -/
def u256Modulus : Nat := 2 ^ 256

/-- Truncation of a natural number to u256 range, the semantics of storing
into a u256 variable. -/
def u256 (n : Nat) : Nat := n % u256Modulus

/-- u256 addition: wraps modulo 2 ^ 256. -/
def u256add (a b : Nat) : Nat := (a + b) % u256Modulus

/-- u256 multiplication: wraps modulo 2 ^ 256. -/
def u256mul (a b : Nat) : Nat := (a * b) % u256Modulus

/-- Modelled from the spec: the value bound to a contract function
parameter (class QVariableDefinition, declared but not defined in the
header).  A binding is either a concrete literal or a reference to the
address produced by an earlier operation of the same sequence. -/
inductive ParamValue
  | literal (v : QString)
  | resultRef (opIndex : Nat)
deriving DecidableEq

/-- Modelled from the spec: a named parameter binding
(QVariableDefinition: parameter name plus its value). -/
structure QVariableDefinition where
  name : QString
  value : ParamValue
deriving DecidableEq

/-- Backend transaction config (struct TransactionSettings of the header),
field for field: contractId, functionId, value, gas, gasPrice,
parameterValues, stdContractUrl, sender.  C++ default construction gives
empty strings, zero u256 values, an empty parameter list and a zero
sender. -/
structure TransactionSettings where
  contractId : QString := ""
  functionId : QString := ""
  value : Nat := 0
  gas : Nat := 0
  gasPrice : Nat := 0
  parameterValues : List QVariableDefinition := []
  stdContractUrl : QString := ""
  sender : Secret := 0
deriving DecidableEq

/-- The default constructor TransactionSettings(). -/
def TransactionSettings.mkDefault : TransactionSettings := {}

/-- The constructor TransactionSettings(_contractId, _functionId, _value,
_gas, _gasPrice, _sender): stores each u256 argument truncated to 256
bits, leaves parameterValues empty and stdContractUrl empty. -/
def TransactionSettings.mkFull (cid fid : QString) (v g gp : Nat) (s : Secret) :
    TransactionSettings :=
  { contractId := cid, functionId := fid, value := u256 v, gas := u256 g,
    gasPrice := u256 gp, sender := s }

/-- The constructor TransactionSettings(_stdContractName, _stdContractUrl):
initializer list is contractId(_stdContractName), stdContractUrl(_stdContractUrl),
so the standard-contract name is stored in the contractId field. -/
def TransactionSettings.mkStd (stdContractName stdContractUrl : QString) :
    TransactionSettings :=
  { contractId := stdContractName, stdContractUrl := stdContractUrl }

/-- Record kind (RecordLogEntry::RecordType): an ordinary transaction
record or a synthetic block-boundary marker. -/
inductive RecordType
  | Transaction
  | Block
deriving DecidableEq

/-- UI transaction log record (class RecordLogEntry of the header), field
for field: recordIndex, transactionIndex, contract, function, value,
address, returned, call, type. -/
structure RecordLogEntry where
  recordIndex : Nat
  transactionIndex : QString
  contract : QString
  function : QString
  value : QString
  address : QString
  returned : QString
  call : Bool
  type : RecordType
deriving DecidableEq

/-- The default constructor RecordLogEntry(): m_recordIndex(0),
m_call(false), m_type(RecordType::Transaction); the QString members are
default constructed to the empty string. -/
def RecordLogEntry.mkDefault : RecordLogEntry :=
  { recordIndex := 0, transactionIndex := "", contract := "", function := "",
    value := "", address := "", returned := "", call := false,
    type := RecordType.Transaction }

/-- The full constructor RecordLogEntry(_recordIndex, _transactionIndex,
_contract, _function, _value, _address, _returned, _call, _type). -/
def RecordLogEntry.mkFields (idx : Nat) (tIdx c f v a r : QString)
    (call : Bool) (ty : RecordType) : RecordLogEntry :=
  { recordIndex := idx, transactionIndex := tIdx, contract := c, function := f,
    value := v, address := a, returned := r, call := call, type := ty }

/-- Modelled from the spec: the Execution Record Store append operation
(the store body is absent from the header): assigns the next index,
stores the record at the end of the log, and returns the assigned index;
existing entries are never overwritten or mutated. -/
def recordAppend (s : List RecordLogEntry) (r : RecordLogEntry) :
    List RecordLogEntry × Nat :=
  (s ++ [{ r with recordIndex := s.length }], s.length)

/-- Iterated store append, the shape of a whole run of appends. -/
def recordAppendAll (s : List RecordLogEntry) (rs : List RecordLogEntry) :
    List RecordLogEntry :=
  rs.foldl (fun acc r => (recordAppend acc r).1) s

/-- The error taxonomy of the design (spec section 7). -/
inductive MixError
  | resolutionError (opIndex : Nat)
  | sourceUnavailableError (url : QString)
  | duplicateNameError (name : QString)
  | notFoundError (what : QString)
  | busyError
  | engineError (msg : QString)
deriving DecidableEq

/-- The descriptive user-visible message carried by the runFailed
notification for each error kind. -/
def errorMessage : MixError → QString
  | MixError.resolutionError i =>
      "unable to resolve parameter for transaction " ++ toString i
  | MixError.sourceUnavailableError u =>
      "standard contract source unavailable at " ++ u
  | MixError.duplicateNameError n => "duplicate contract name " ++ n
  | MixError.notFoundError w => "not found " ++ w
  | MixError.busyError => "client already running"
  | MixError.engineError m => "execution engine failure " ++ m

/-- The observer notifications (Qt signals) declared in the header that the
controller emits during execution. -/
inductive Event
  | runStarted
  | runComplete
  | runFailed (msg : QString)
  | miningStarted
  | miningComplete
  | contractAddressesChanged
  | newRecord (r : RecordLogEntry)
  | stateCleared
deriving DecidableEq

/-- The controller run states of the design (spec section 4.4). -/
inductive RunState
  | Idle
  | Running
  | Failed
deriving DecidableEq

/-- The name/address registry: the four maps m_contractAddresses,
m_contractNames, m_stdContractAddresses, m_stdContractNames of the
header, embedded as association lists. -/
structure Registry where
  contractAddresses : List (QString × Address)
  contractNames : List (Address × QString)
  stdContractAddresses : List (QString × Address)
  stdContractNames : List (Address × QString)
deriving DecidableEq

/-- The empty registry (all four maps empty). -/
def Registry.empty : Registry := ⟨[], [], [], []⟩

/-- Association-list lookup, the std::map::find of the embedding. -/
def lookupAssoc {α β : Type} [DecidableEq α] :
    List (α × β) → α → Option β
  | [], _ => none
  | (k2, v) :: rest, k => if k2 = k then some v else lookupAssoc rest k

/-- Modelled from the spec: registerDeployed(name, address) inserts into
the user namespace and fails with DuplicateNameError when the name is
already bound to a different address in this run (the body is absent
from the header). -/
def registerDeployed (reg : Registry) (name : QString) (addr : Address) :
    Except MixError Registry :=
  match lookupAssoc reg.contractAddresses name with
  | some a =>
      if a = addr then Except.ok reg
      else Except.error (MixError.duplicateNameError name)
  | none =>
      Except.ok { reg with
        contractAddresses := (name, addr) :: reg.contractAddresses,
        contractNames := (addr, name) :: reg.contractNames }

/-- Modelled from the spec: registerStandard(name, address), the same
contract as registerDeployed for the standard namespace. -/
def registerStandard (reg : Registry) (name : QString) (addr : Address) :
    Except MixError Registry :=
  match lookupAssoc reg.stdContractAddresses name with
  | some a =>
      if a = addr then Except.ok reg
      else Except.error (MixError.duplicateNameError name)
  | none =>
      Except.ok { reg with
        stdContractAddresses := (name, addr) :: reg.stdContractAddresses,
        stdContractNames := (addr, name) :: reg.stdContractNames }

/-- Modelled from the spec: name lookup searches the user namespace first,
then the standard namespace. -/
def registryLookup (reg : Registry) (name : QString) : Option Address :=
  match lookupAssoc reg.contractAddresses name with
  | some a => some a
  | none => lookupAssoc reg.stdContractAddresses name

/-- Result returned by the black-box execution engine for one transaction
(spec section 6, execution engine boundary). -/
structure EngineResult where
  returnData : QString
deriving DecidableEq

/-- The simulation controller state (class ClientModel of the header):
run state, the running/mining flags, the registry maps, the record log,
the funded balances and the deterministic address allocator of the
ephemeral ledger client. -/
structure ClientModel where
  state : RunState
  running : Bool
  mining : Bool
  registry : Registry
  records : List RecordLogEntry
  balances : List (Secret × Nat)
  nextAddress : Address
deriving DecidableEq

/-- The freshly constructed controller: Idle, no flags set, empty
registry and record store, a fresh ledger. -/
def ClientModel.initial : ClientModel :=
  { state := RunState.Idle, running := false, mining := false,
    registry := Registry.empty, records := [], balances := [],
    nextAddress := 1 }

/-- Modelled from the spec: a state reset destroys and recreates the
ledger client, the registry and the record store atomically; nothing of
the previous run survives. -/
def ClientModel.reset (_m : ClientModel) : ClientModel := ClientModel.initial

/-- Modelled from the spec: the controller state right after reset and
balance funding, entering Running. -/
def startRun (balances : List (Secret × Nat)) : ClientModel :=
  { ClientModel.initial with
      balances := balances,
      state := RunState.Running,
      running := true }

/-- The human readable position label stored in a record's
transactionIndex field. -/
def positionLabel (m : ClientModel) : QString :=
  "tx " ++ toString m.records.length

/-- Modelled from the spec: resolve one parameter binding; a reference to
an operation that has not yet executed is a ResolutionError reported for
the current operation index. -/
def resolveParam (executed : List Address) (opIndex : Nat)
    (p : QVariableDefinition) : Except MixError QString :=
  match p.value with
  | ParamValue.literal v => Except.ok v
  | ParamValue.resultRef i =>
      match executed.get? i with
      | some a => Except.ok (toString a)
      | none => Except.error (MixError.resolutionError opIndex)

/-- Modelled from the spec: resolve all parameter bindings of one
operation, left to right, aborting at the first failure. -/
def resolveParams (executed : List Address) (opIndex : Nat) :
    List QVariableDefinition → Except MixError (List QString)
  | [] => Except.ok []
  | p :: ps =>
      match resolveParam executed opIndex p with
      | Except.error e => Except.error e
      | Except.ok v =>
          match resolveParams executed opIndex ps with
          | Except.error e => Except.error e
          | Except.ok vs => Except.ok (v :: vs)

/-- Modelled from the spec: execute one operation against the engine.
Resolve the parameters; a standard-contract operation (non-empty
stdContractUrl) fetches its code by URL and deploys under the standard
namespace; an operation with empty functionId is a deployment of locally
authored code registered in the user namespace; otherwise it is a call on
the contract resolved through the registry.  Every success appends
exactly one record to the store; every failure returns the error and
leaves the controller untouched. -/
def executeStep (fetch : QString → Option QString)
    (engine : TransactionSettings → List QString → Except QString EngineResult)
    (opIndex : Nat) (tr : TransactionSettings) (m : ClientModel)
    (executed : List Address) :
    Except MixError (ClientModel × List Event × List Address) :=
  match resolveParams executed opIndex tr.parameterValues with
  | Except.error e => Except.error e
  | Except.ok args =>
    if tr.stdContractUrl ≠ "" then
      match fetch tr.stdContractUrl with
      | none => Except.error (MixError.sourceUnavailableError tr.stdContractUrl)
      | some _code =>
        match engine tr args with
        | Except.error msg => Except.error (MixError.engineError msg)
        | Except.ok _res =>
          match registerStandard m.registry tr.contractId m.nextAddress with
          | Except.error e => Except.error e
          | Except.ok reg2 =>
            let entry0 := RecordLogEntry.mkFields 0 (positionLabel m)
              tr.contractId "" (toString tr.value) ""
              (toString m.nextAddress) false RecordType.Transaction
            let appended := recordAppend m.records entry0
            let stored := { entry0 with recordIndex := appended.2 }
            Except.ok
              ({ m with
                   registry := reg2,
                   records := appended.1,
                   nextAddress := m.nextAddress + 1 },
               [Event.newRecord stored, Event.contractAddressesChanged],
               executed ++ [m.nextAddress])
    else if tr.functionId = "" then
      match engine tr args with
      | Except.error msg => Except.error (MixError.engineError msg)
      | Except.ok _res =>
        match registerDeployed m.registry tr.contractId m.nextAddress with
        | Except.error e => Except.error e
        | Except.ok reg2 =>
          let entry0 := RecordLogEntry.mkFields 0 (positionLabel m)
            tr.contractId "" (toString tr.value) ""
            (toString m.nextAddress) false RecordType.Transaction
          let appended := recordAppend m.records entry0
          let stored := { entry0 with recordIndex := appended.2 }
          Except.ok
            ({ m with
                 registry := reg2,
                 records := appended.1,
                 nextAddress := m.nextAddress + 1 },
             [Event.newRecord stored, Event.contractAddressesChanged],
             executed ++ [m.nextAddress])
    else
      match registryLookup m.registry tr.contractId with
      | none => Except.error (MixError.notFoundError tr.contractId)
      | some addr =>
        match engine tr args with
        | Except.error msg => Except.error (MixError.engineError msg)
        | Except.ok res =>
          let entry0 := RecordLogEntry.mkFields 0 (positionLabel m)
            tr.contractId tr.functionId (toString tr.value) (toString addr)
            res.returnData false RecordType.Transaction
          let appended := recordAppend m.records entry0
          let stored := { entry0 with recordIndex := appended.2 }
          Except.ok
            ({ m with records := appended.1 },
             [Event.newRecord stored], executed ++ [addr])

/-- Outcome of running a (suffix of a) transaction sequence. -/
structure RunResult where
  model : ClientModel
  executed : List Address
  events : List Event
  err : Option MixError
deriving DecidableEq

/-- Modelled from the spec: replay the operations one at a time against
the engine; the first failure aborts the remainder of the sequence,
appending no further records; already executed operations are not rolled
back. -/
def runSequence (fetch : QString → Option QString)
    (engine : TransactionSettings → List QString → Except QString EngineResult) :
    List TransactionSettings → Nat → ClientModel → List Address → RunResult
  | [], _, m, executed => ⟨m, executed, [], none⟩
  | tr :: rest, i, m, executed =>
    match executeStep fetch engine i tr m executed with
    | Except.error e => ⟨m, executed, [], some e⟩
    | Except.ok (m2, evs, executed2) =>
      let r := runSequence fetch engine rest (i + 1) m2 executed2
      ⟨r.model, r.executed, evs ++ r.events, r.err⟩

/-- Modelled from the spec: setupState — a mutating call while Running is
rejected with BusyError and resets nothing; otherwise the controller
resets registry, record store and ledger, funds the declared balances,
runs the sequence, and either signals completion or recovers the failure
into a runFailed notification carrying its descriptive message with the
partial record log intact, returning to Idle. -/
def setupState (fetch : QString → Option QString)
    (engine : TransactionSettings → List QString → Except QString EngineResult)
    (balances : List (Secret × Nat)) (ops : List TransactionSettings)
    (m : ClientModel) : ClientModel × List Event :=
  if m.running then
    (m, [Event.runFailed (errorMessage MixError.busyError)])
  else
    let r := runSequence fetch engine ops 0 (startRun balances) []
    match r.err with
    | none =>
        ({ r.model with state := RunState.Idle, running := false },
         Event.stateCleared :: Event.runStarted ::
           (r.events ++ [Event.runComplete]))
    | some e =>
        ({ r.model with state := RunState.Idle, running := false },
         Event.stateCleared :: Event.runStarted ::
           (r.events ++ [Event.runFailed (errorMessage e)]))

/-- Modelled from the spec: mine() — valid only from Idle; appends one
block-boundary marker record, alters no ledger or registry state, and
fires the miningStarted/miningComplete notification pair around the new
record. -/
def ClientModel.mine (m : ClientModel) : ClientModel × List Event :=
  if m.state = RunState.Idle then
    let entry0 := { RecordLogEntry.mkDefault with type := RecordType.Block }
    let appended := recordAppend m.records entry0
    let stored := { entry0 with recordIndex := appended.2 }
    ({ m with records := appended.1 },
     [Event.miningStarted, Event.newRecord stored, Event.miningComplete])
  else (m, [])

/-- Well-formedness of one registry namespace: every name is bound at most
once, every address is bound at most once, and the reverse map mirrors the
forward map (the bidirectional invariant of the design). -/
def wfNamespace (forward : List (QString × Address))
    (backward : List (Address × QString)) : Prop :=
  (forward.map Prod.fst).Nodup ∧ (forward.map Prod.snd).Nodup ∧
  backward = forward.map (fun p => (p.2, p.1))

/-- Well-formedness of the whole registry: both namespaces are
well-formed. -/
def Registry.wf (r : Registry) : Prop :=
  wfNamespace r.contractAddresses r.contractNames ∧
  wfNamespace r.stdContractAddresses r.stdContractNames

/-- The user-authored field group of the claimed settings invariant is
meaningfully populated (a non-empty contract identifier). -/
def userGroupPopulated (t : TransactionSettings) : Prop :=
  t.contractId ≠ ""

/-- The standard-contract field group of the claimed settings invariant is
meaningfully populated (a non-empty standard contract URL). -/
def stdGroupPopulated (t : TransactionSettings) : Prop :=
  t.stdContractUrl ≠ ""

/-- Spec-side reading of the claimed invariant on TransactionSettings:
exactly one of the two field groups is meaningfully populated.  Stated
from the words of the spec, to be compared against the constructors of
the source. -/
def specExactlyOneGroup (t : TransactionSettings) : Prop :=
  (userGroupPopulated t ∧ ¬ stdGroupPopulated t) ∨
  (¬ userGroupPopulated t ∧ stdGroupPopulated t)

/-- A fetch collaborator with no available standard sources, used as a
concrete instantiation in witnesses. -/
def fetchNone : QString → Option QString := fun _ => none

/-- An engine collaborator that succeeds on every transaction with an
empty return value, used as a concrete instantiation in witnesses. -/
def engineOk : TransactionSettings → List QString → Except QString EngineResult :=
  fun _ _ => Except.ok { returnData := "" }

/-- A deployment operation whose parameter list holds an unresolvable
reference to the result of operation 3, used as a concrete failing input
in witnesses. -/
def badRefStep : TransactionSettings :=
  { contractId := "Broken", functionId := "",
    parameterValues := [{ name := "p", value := ParamValue.resultRef 3 }] }

/-- A plain deployment of a contract named Token, used as a concrete
instantiation in witnesses. -/
def deployToken : TransactionSettings :=
  TransactionSettings.mkFull "Token" "" 5 100000 1 7

/-! ## Helper lemmas -/

/-- A string append with a non-empty left part is non-empty. -/
theorem append_ne_empty_of_left (a b : QString) (h : a.length ≠ 0) :
    a ++ b ≠ "" := by
  intro heq
  have hl : a.length + b.length = 0 := by
    have hc := congrArg String.length heq
    simpa [String.length_append] using hc
  omega

/-- Every error kind carries a non-empty descriptive message. -/
theorem errorMessage_ne_empty (e : MixError) : errorMessage e ≠ "" := by
  cases e with
  | resolutionError i => exact append_ne_empty_of_left _ _ (by decide)
  | sourceUnavailableError u => exact append_ne_empty_of_left _ _ (by decide)
  | duplicateNameError n => exact append_ne_empty_of_left _ _ (by decide)
  | notFoundError w => exact append_ne_empty_of_left _ _ (by decide)
  | busyError => decide
  | engineError m => exact append_ne_empty_of_left _ _ (by decide)

/-- Appending never disturbs the entries already stored. -/
theorem recordAppendAll_take (rs : List RecordLogEntry) :
    ∀ s : List RecordLogEntry, (recordAppendAll s rs).take s.length = s := by
  induction rs with
  | nil =>
      intro s
      simp [recordAppendAll]
  | cons r rs ih =>
      intro s
      have h1 : recordAppendAll s (r :: rs)
          = recordAppendAll (s ++ [{ r with recordIndex := s.length }]) rs := rfl
      rw [h1]
      have h2 := ih (s ++ [{ r with recordIndex := s.length }])
      have h3 : (recordAppendAll (s ++ [{ r with recordIndex := s.length }]) rs).take s.length
          = ((recordAppendAll (s ++ [{ r with recordIndex := s.length }]) rs).take
              (s ++ [{ r with recordIndex := s.length }]).length).take s.length := by
        rw [List.take_take]
        congr 1
        simp
      rw [h3, h2]
      exact List.take_left s _

/-- The record indices produced by iterated appends continue the range of
positions starting at the current store length. -/
theorem recordAppendAll_map_index (rs : List RecordLogEntry) :
    ∀ s : List RecordLogEntry,
      (recordAppendAll s rs).map RecordLogEntry.recordIndex
        = s.map RecordLogEntry.recordIndex ++ List.range' s.length rs.length := by
  induction rs with
  | nil =>
      intro s
      simp [recordAppendAll]
  | cons r rs ih =>
      intro s
      have h1 : recordAppendAll s (r :: rs)
          = recordAppendAll (s ++ [{ r with recordIndex := s.length }]) rs := rfl
      rw [h1, ih]
      simp [List.range'_succ]

/-- A successful step extends the record log through the store append
operation: exactly one new record, nothing overwritten. -/
theorem executeStep_ok_records
    (fetch : QString → Option QString)
    (engine : TransactionSettings → List QString → Except QString EngineResult)
    (i : Nat) (tr : TransactionSettings) (m m2 : ClientModel)
    (executed executed2 : List Address) (evs : List Event)
    (h : executeStep fetch engine i tr m executed = Except.ok (m2, evs, executed2)) :
    ∃ r0, m2.records = (recordAppend m.records r0).1 := by
  unfold executeStep at h
  repeat' split at h
  all_goals
    first
      | (simp only [Except.ok.injEq, Prod.mk.injEq] at h
         obtain ⟨hm, -, -⟩ := h
         subst hm
         exact ⟨_, rfl⟩)
      | cases h

/-- One store append keeps the log indexed by position. -/
theorem recordAppend_indexed (s : List RecordLogEntry) (r : RecordLogEntry)
    (h : s.map RecordLogEntry.recordIndex = List.range s.length) :
    (recordAppend s r).1.map RecordLogEntry.recordIndex
      = List.range (recordAppend s r).1.length := by
  simp [recordAppend, h, List.range_succ]

/-- Running any operation sequence keeps the record log indexed by
position: every record's index equals its position in the log. -/
theorem runSequence_indexed
    (fetch : QString → Option QString)
    (engine : TransactionSettings → List QString → Except QString EngineResult) :
    ∀ (ops : List TransactionSettings) (i : Nat) (m : ClientModel)
      (executed : List Address),
      m.records.map RecordLogEntry.recordIndex = List.range m.records.length →
      (runSequence fetch engine ops i m executed).model.records.map
          RecordLogEntry.recordIndex
        = List.range
            (runSequence fetch engine ops i m executed).model.records.length := by
  intro ops
  induction ops with
  | nil =>
      intro i m executed h
      simpa [runSequence] using h
  | cons tr rest ih =>
      intro i m executed h
      cases hstep : executeStep fetch engine i tr m executed with
      | error e =>
          simp only [runSequence, hstep]
          exact h
      | ok t =>
          obtain ⟨m2, evs, executed2⟩ := t
          simp only [runSequence, hstep]
          obtain ⟨r0, hr0⟩ := executeStep_ok_records fetch engine i tr m m2
            executed executed2 evs hstep
          exact ih (i + 1) m2 executed2 (by rw [hr0]; exact recordAppend_indexed m.records r0 h)

/-- A sequence whose first operation fails produces the error, appends no
record and executes nothing further. -/
theorem runSequence_cons_error
    (fetch : QString → Option QString)
    (engine : TransactionSettings → List QString → Except QString EngineResult)
    (tr : TransactionSettings) (post : List TransactionSettings) (i : Nat)
    (m : ClientModel) (executed : List Address) (e : MixError)
    (hbad : executeStep fetch engine i tr m executed = Except.error e) :
    runSequence fetch engine (tr :: post) i m executed = ⟨m, executed, [], some e⟩ := by
  simp [runSequence, hbad]

/-- Splitting a run after a successful prefix: the whole run continues
from the prefix's final controller state and event log. -/
theorem runSequence_append_ok
    (fetch : QString → Option QString)
    (engine : TransactionSettings → List QString → Except QString EngineResult) :
    ∀ (pre rest : List TransactionSettings) (i : Nat) (m : ClientModel)
      (executed : List Address) (mp : ClientModel) (exp : List Address)
      (evs : List Event),
      runSequence fetch engine pre i m executed = ⟨mp, exp, evs, none⟩ →
      runSequence fetch engine (pre ++ rest) i m executed =
        ⟨(runSequence fetch engine rest (i + pre.length) mp exp).model,
         (runSequence fetch engine rest (i + pre.length) mp exp).executed,
         evs ++ (runSequence fetch engine rest (i + pre.length) mp exp).events,
         (runSequence fetch engine rest (i + pre.length) mp exp).err⟩ := by
  intro pre
  induction pre with
  | nil =>
      intro rest i m executed mp exp evs h
      simp only [runSequence] at h
      obtain ⟨h1, h2, h3, -⟩ := RunResult.mk.injEq .. ▸ h
      subst h1
      subst h2
      subst h3
      simp [runSequence]
  | cons tr pre ih =>
      intro rest i m executed mp exp evs h
      cases hstep : executeStep fetch engine i tr m executed with
      | error e =>
          rw [runSequence_cons_error fetch engine tr pre i m executed e hstep] at h
          obtain ⟨-, -, -, h4⟩ := RunResult.mk.injEq .. ▸ h
          cases h4
      | ok t =>
          obtain ⟨m2, evs2, executed2⟩ := t
          simp only [runSequence, hstep] at h
          cases hrun : runSequence fetch engine pre (i + 1) m2 executed2 with
          | mk mr exr evr er =>
            rw [hrun] at h
            obtain ⟨h1, h2, h3, h4⟩ := RunResult.mk.injEq .. ▸ h
            subst h1
            subst h2
            subst h3
            subst h4
            have hrec := ih rest (i + 1) m2 executed2 mr exr evr hrun
            have hlen : i + 1 + pre.length = i + (pre.length + 1) := by omega
            rw [hlen] at hrec
            simp only [List.cons_append, runSequence, hstep, List.length_cons]
            simp [hrec, List.append_assoc]

/-- A failed association lookup means the key is absent. -/
theorem lookupAssoc_none_notMem {α β : Type} [DecidableEq α] :
    ∀ (m : List (α × β)) (k : α), lookupAssoc m k = none → k ∉ m.map Prod.fst := by
  intro m
  induction m with
  | nil =>
      intro k h
      simp
  | cons p rest ih =>
      obtain ⟨k2, v⟩ := p
      intro k h
      simp only [lookupAssoc] at h
      by_cases hk : k2 = k
      · rw [if_pos hk] at h
        cases h
      · rw [if_neg hk] at h
        simp only [List.map_cons, List.mem_cons]
        intro hmem
        rcases hmem with hmem | hmem
        · exact hk hmem.symm
        · exact ih k h hmem

/-- A successful user-namespace registration with a fresh address keeps the
registry well-formed. -/
theorem registerDeployed_wf (r r2 : Registry) (n : QString) (a : Address)
    (hwf : Registry.wf r) (hfresh : a ∉ r.contractAddresses.map Prod.snd)
    (h : registerDeployed r n a = Except.ok r2) : Registry.wf r2 := by
  unfold registerDeployed at h
  cases hl : lookupAssoc r.contractAddresses n with
  | some a0 =>
      simp only [hl] at h
      by_cases haa : a0 = a
      · rw [if_pos haa] at h
        injection h with h
        subst h
        exact hwf
      · rw [if_neg haa] at h
        cases h
  | none =>
      simp only [hl] at h
      injection h with h
      subst h
      obtain ⟨⟨hn1, hn2, hn3⟩, hstd⟩ := hwf
      refine ⟨⟨?_, ?_, ?_⟩, hstd⟩
      · simp only [List.map_cons, List.nodup_cons]
        exact ⟨lookupAssoc_none_notMem _ _ hl, hn1⟩
      · simp only [List.map_cons, List.nodup_cons]
        exact ⟨hfresh, hn2⟩
      · simp only [List.map_cons]
        rw [hn3]

/-- A successful standard-namespace registration with a fresh address keeps
the registry well-formed. -/
theorem registerStandard_wf (r r2 : Registry) (n : QString) (a : Address)
    (hwf : Registry.wf r) (hfresh : a ∉ r.stdContractAddresses.map Prod.snd)
    (h : registerStandard r n a = Except.ok r2) : Registry.wf r2 := by
  unfold registerStandard at h
  cases hl : lookupAssoc r.stdContractAddresses n with
  | some a0 =>
      simp only [hl] at h
      by_cases haa : a0 = a
      · rw [if_pos haa] at h
        injection h with h
        subst h
        exact hwf
      · rw [if_neg haa] at h
        cases h
  | none =>
      simp only [hl] at h
      injection h with h
      subst h
      obtain ⟨husr, ⟨hn1, hn2, hn3⟩⟩ := hwf
      refine ⟨husr, ?_, ?_, ?_⟩
      · simp only [List.map_cons, List.nodup_cons]
        exact ⟨lookupAssoc_none_notMem _ _ hl, hn1⟩
      · simp only [List.map_cons, List.nodup_cons]
        exact ⟨hfresh, hn2⟩
      · simp only [List.map_cons]
        rw [hn3]

/-- Registering into the user namespace leaves the standard namespace
untouched. -/
theorem registerDeployed_std_unchanged (r r2 : Registry) (n : QString)
    (a : Address) (h : registerDeployed r n a = Except.ok r2) :
    r2.stdContractAddresses = r.stdContractAddresses ∧
    r2.stdContractNames = r.stdContractNames := by
  unfold registerDeployed at h
  cases hl : lookupAssoc r.contractAddresses n with
  | some a0 =>
      simp only [hl] at h
      by_cases haa : a0 = a
      · rw [if_pos haa] at h
        injection h with h
        subst h
        exact ⟨rfl, rfl⟩
      · rw [if_neg haa] at h
        cases h
  | none =>
      simp only [hl] at h
      injection h with h
      subst h
      exact ⟨rfl, rfl⟩

/-! ## Claim theorems -/

/-- C10: a default-constructed RecordLogEntry has record index 0, the call
flag false, record kind Transaction, and empty strings for the
transaction index, contract, function, value, address and returned
fields. -/
theorem default_record_entry_fields :
    RecordLogEntry.mkDefault.recordIndex = 0 ∧
    RecordLogEntry.mkDefault.call = false ∧
    RecordLogEntry.mkDefault.type = RecordType.Transaction ∧
    RecordLogEntry.mkDefault.transactionIndex = "" ∧
    RecordLogEntry.mkDefault.contract = "" ∧
    RecordLogEntry.mkDefault.function = "" ∧
    RecordLogEntry.mkDefault.value = "" ∧
    RecordLogEntry.mkDefault.address = "" ∧
    RecordLogEntry.mkDefault.returned = "" :=
  ⟨rfl, rfl, rfl, rfl, rfl, rfl, rfl, rfl, rfl⟩

/-- C9: value, gas and gasPrice of every constructed TransactionSettings
are non-negative integers representable in 256 bits, and u256 addition
and multiplication stay within unsigned 256-bit range. -/
theorem settings_u256_bounded (cid fid : QString) (v g gp : Nat) (s : Secret)
    (name url : QString) (a b : Nat) :
    (TransactionSettings.mkFull cid fid v g gp s).value < u256Modulus ∧
    (TransactionSettings.mkFull cid fid v g gp s).gas < u256Modulus ∧
    (TransactionSettings.mkFull cid fid v g gp s).gasPrice < u256Modulus ∧
    0 ≤ (TransactionSettings.mkFull cid fid v g gp s).value ∧
    (TransactionSettings.mkStd name url).value < u256Modulus ∧
    (TransactionSettings.mkStd name url).gas < u256Modulus ∧
    (TransactionSettings.mkStd name url).gasPrice < u256Modulus ∧
    TransactionSettings.mkDefault.value < u256Modulus ∧
    u256add a b < u256Modulus ∧
    u256mul a b < u256Modulus := by
  have hpos : 0 < u256Modulus := by decide
  simp only [TransactionSettings.mkFull, TransactionSettings.mkStd,
    TransactionSettings.mkDefault, u256, u256add, u256mul]
  refine ⟨Nat.mod_lt _ hpos, Nat.mod_lt _ hpos, Nat.mod_lt _ hpos,
    Nat.zero_le _, hpos, hpos, hpos, hpos, Nat.mod_lt _ hpos, Nat.mod_lt _ hpos⟩

/-- C2 counterexample: a TransactionSettings built by the
standard-contract constructor stores the standard-contract name in the
contractId field, so both claimed field groups are populated at once and
the claimed exactly-one-group invariant fails. -/
theorem std_settings_populate_both_groups :
    ¬ specExactlyOneGroup (TransactionSettings.mkStd "Config" "std:config")
      ∧ (TransactionSettings.mkStd "Config" "std:config").contractId = "Config" := by
  constructor
  · intro hspec
    unfold specExactlyOneGroup userGroupPopulated stdGroupPopulated
      TransactionSettings.mkStd at hspec
    rcases hspec with ⟨-, h2⟩ | ⟨h1, -⟩
    · exact h2 (by decide)
    · exact h1 (by decide)
  · rfl

/-- C2 amended: the standard-contract constructor stores the
standard-contract name in the contractId field (not in a separate field)
together with the URL in stdContractUrl, leaving functionId, the
parameter list and the money fields at their defaults; the full
constructor leaves stdContractUrl empty, so the two kinds of settings
are distinguished by whether stdContractUrl is empty. -/
theorem std_settings_share_contractId (name url cid fid : QString)
    (v g gp : Nat) (s : Secret) :
    (TransactionSettings.mkStd name url).contractId = name ∧
    (TransactionSettings.mkStd name url).stdContractUrl = url ∧
    (TransactionSettings.mkStd name url).functionId = "" ∧
    (TransactionSettings.mkStd name url).parameterValues = [] ∧
    (TransactionSettings.mkStd name url).value = 0 ∧
    (TransactionSettings.mkFull cid fid v g gp s).stdContractUrl = "" :=
  ⟨rfl, rfl, rfl, rfl, rfl, rfl⟩

/-- C3: records are immutable after construction — the store append
operation never overwrites or mutates existing entries: every entry
already stored is still there, unchanged, after any number of further
appends, and each append adds exactly one entry at the end. -/
theorem records_never_overwritten (s : List RecordLogEntry)
    (r : RecordLogEntry) (rs : List RecordLogEntry) :
    (recordAppend s r).1.take s.length = s ∧
    (recordAppend s r).1.length = s.length + 1 ∧
    (recordAppendAll s rs).take s.length = s :=
  ⟨by simp [recordAppend],
   by simp [recordAppend],
   recordAppendAll_take rs s⟩

/-- C4: within one run, record indices assigned at append time are exactly
the positions 0, 1, 2, … — strictly increasing, no gaps, no reuse — both
for an arbitrary sequence of store appends and for the record log
produced by running any transaction sequence from a fresh state. -/
theorem record_indices_strictly_increasing (rs : List RecordLogEntry)
    (fetch : QString → Option QString)
    (engine : TransactionSettings → List QString → Except QString EngineResult)
    (balances : List (Secret × Nat)) (ops : List TransactionSettings) :
    (recordAppendAll [] rs).map RecordLogEntry.recordIndex
        = List.range rs.length ∧
    List.Chain' (· < ·)
        ((recordAppendAll [] rs).map RecordLogEntry.recordIndex) ∧
    (runSequence fetch engine ops 0 (startRun balances) []).model.records.map
          RecordLogEntry.recordIndex
      = List.range
          (runSequence fetch engine ops 0 (startRun balances) []).model.records.length := by
  have h1 : (recordAppendAll [] rs).map RecordLogEntry.recordIndex
      = List.range rs.length := by
    have hmap := recordAppendAll_map_index rs []
    simp only [List.map_nil, List.length_nil, List.nil_append] at hmap
    rw [hmap, List.range_eq_range' rs.length]
  refine ⟨h1, ?_, ?_⟩
  · rw [h1]
    exact (List.pairwise_lt_range rs.length).chain'
  · exact runSequence_indexed fetch engine ops 0 (startRun balances) [] rfl

/-- C1: every error arising during a run — after any successfully executed
prefix, whatever operation fails with whatever error of the taxonomy —
is recovered at the controller boundary: setupState returns to Idle with
the running flag cleared, keeps exactly the partial record log produced
before the failure (appending nothing for the failing or later
operations), and emits a single runFailed notification carrying the
error's non-empty descriptive message; a mutating call while already
Running is likewise rejected with a BusyError runFailed notification and
changes nothing. -/
theorem run_errors_recovered_at_boundary
    (fetch : QString → Option QString)
    (engine : TransactionSettings → List QString → Except QString EngineResult)
    (balances : List (Secret × Nat))
    (pre post : List TransactionSettings) (tr : TransactionSettings)
    (m mp : ClientModel) (exp : List Address) (evs : List Event) (e : MixError)
    (hrun : m.running = false)
    (hpre : runSequence fetch engine pre 0 (startRun balances) []
        = ⟨mp, exp, evs, none⟩)
    (hbad : executeStep fetch engine pre.length tr mp exp = Except.error e) :
    setupState fetch engine balances (pre ++ tr :: post) m
      = ({ mp with state := RunState.Idle, running := false },
         Event.stateCleared :: Event.runStarted ::
           (evs ++ [Event.runFailed (errorMessage e)]))
    ∧ errorMessage e ≠ ""
    ∧ (∀ mb : ClientModel, mb.running = true →
        setupState fetch engine balances (pre ++ tr :: post) mb
          = (mb, [Event.runFailed (errorMessage MixError.busyError)])) := by
  have hall : runSequence fetch engine (pre ++ tr :: post) 0 (startRun balances) []
      = ⟨mp, exp, evs, some e⟩ := by
    rw [runSequence_append_ok fetch engine pre (tr :: post) 0 (startRun balances)
      [] mp exp evs hpre]
    rw [runSequence_cons_error fetch engine tr post (0 + pre.length) mp exp e
      (by simpa using hbad)]
    simp
  refine ⟨?_, errorMessage_ne_empty e, ?_⟩
  · rw [setupState, if_neg (by simp [hrun]), hall]
  · intro mb hb
    rw [setupState, if_pos (by simp [hb])]

/-- Witness for C1: a one-operation sequence whose parameter references
the result of operation 3 (never executed) fails with ResolutionError,
leaves no records, and is reported through runFailed. -/
theorem run_errors_recovered_at_boundary_witness :
    setupState fetchNone engineOk [] ([] ++ badRefStep :: []) ClientModel.initial
      = ({ startRun [] with state := RunState.Idle, running := false },
         Event.stateCleared :: Event.runStarted ::
           ([] ++ [Event.runFailed (errorMessage (MixError.resolutionError 0))]))
    ∧ errorMessage (MixError.resolutionError 0) ≠ ""
    ∧ (∀ mb : ClientModel, mb.running = true →
        setupState fetchNone engineOk [] ([] ++ badRefStep :: []) mb
          = (mb, [Event.runFailed (errorMessage MixError.busyError)])) :=
  run_errors_recovered_at_boundary fetchNone engineOk [] [] [] badRefStep
    ClientModel.initial (startRun []) [] [] (MixError.resolutionError 0)
    rfl rfl rfl

/-- C5: setupState is deterministic — run against any two controllers that
are not mid-run (each is freshly reset inside setupState), the same state
description produces identical outputs: the same ordered record sequence
with the same addresses allocated in the same order, the same registry
and the same notifications. -/
theorem setupState_deterministic
    (fetch : QString → Option QString)
    (engine : TransactionSettings → List QString → Except QString EngineResult)
    (balances : List (Secret × Nat)) (ops : List TransactionSettings)
    (c1 c2 : ClientModel)
    (h1 : c1.running = false) (h2 : c2.running = false) :
    setupState fetch engine balances ops c1
      = setupState fetch engine balances ops c2 ∧
    (setupState fetch engine balances ops c1).1.records
      = (setupState fetch engine balances ops c2).1.records := by
  have h : setupState fetch engine balances ops c1
      = setupState fetch engine balances ops c2 := by
    rw [setupState, setupState, if_neg (by simp [h1]), if_neg (by simp [h2])]
  exact ⟨h, by rw [h]⟩

/-- Witness for C5: two controllers differing in their leftover mining
flag produce identical outputs for the same description. -/
theorem setupState_deterministic_witness :
    setupState fetchNone engineOk [(7, 1000)] [deployToken] ClientModel.initial
      = setupState fetchNone engineOk [(7, 1000)] [deployToken]
          { ClientModel.initial with mining := true } ∧
    (setupState fetchNone engineOk [(7, 1000)] [deployToken]
        ClientModel.initial).1.records
      = (setupState fetchNone engineOk [(7, 1000)] [deployToken]
          { ClientModel.initial with mining := true }).1.records :=
  setupState_deterministic fetchNone engineOk [(7, 1000)] [deployToken]
    ClientModel.initial { ClientModel.initial with mining := true } rfl rfl

/-- C6: the registry is a bidirectional name/address mapping partitioned
into independent user and standard namespaces: the empty registry is
well-formed; registrations with fresh addresses preserve uniqueness of
names and addresses within each namespace together with the mirrored
reverse maps; registering a name already present in the other namespace
never raises DuplicateNameError; registering a name bound in the same
namespace to a different address always does. -/
theorem registry_namespace_independence (n : QString) (a b : Address) :
    Registry.wf Registry.empty ∧
    (∀ r r1 : Registry, registerDeployed r n a = Except.ok r1 →
        lookupAssoc r.stdContractAddresses n = none →
        ∃ r2, registerStandard r1 n b = Except.ok r2) ∧
    (∀ r1 r2 : Registry, registerStandard r1 n b = Except.ok r2 →
        lookupAssoc r1.contractAddresses n = some a →
        lookupAssoc r2.contractAddresses n = some a) ∧
    (∀ (r : Registry) (a0 : Address),
        lookupAssoc r.contractAddresses n = some a0 → b ≠ a0 →
        registerDeployed r n b = Except.error (MixError.duplicateNameError n)) ∧
    (∀ (r : Registry) (a0 : Address),
        lookupAssoc r.stdContractAddresses n = some a0 → b ≠ a0 →
        registerStandard r n b = Except.error (MixError.duplicateNameError n)) ∧
    (∀ (r r2 : Registry) (n2 : QString) (a2 : Address), Registry.wf r →
        a2 ∉ r.contractAddresses.map Prod.snd →
        registerDeployed r n2 a2 = Except.ok r2 → Registry.wf r2) ∧
    (∀ (r r2 : Registry) (n2 : QString) (a2 : Address), Registry.wf r →
        a2 ∉ r.stdContractAddresses.map Prod.snd →
        registerStandard r n2 a2 = Except.ok r2 → Registry.wf r2) := by
  refine ⟨?_, ?_, ?_, ?_, ?_, ?_, ?_⟩
  · exact ⟨⟨List.nodup_nil, List.nodup_nil, rfl⟩,
      ⟨List.nodup_nil, List.nodup_nil, rfl⟩⟩
  · intro r r1 hd hstd
    have hstd1 : lookupAssoc r1.stdContractAddresses n = none := by
      rw [(registerDeployed_std_unchanged r r1 n a hd).1]
      exact hstd
    refine ⟨{ r1 with
        stdContractAddresses := (n, b) :: r1.stdContractAddresses,
        stdContractNames := (b, n) :: r1.stdContractNames }, ?_⟩
    unfold registerStandard
    simp only [hstd1]
  · intro r1 r2 hs hl
    unfold registerStandard at hs
    cases hl1 : lookupAssoc r1.stdContractAddresses n with
    | some a0 =>
        simp only [hl1] at hs
        by_cases haa : a0 = b
        · rw [if_pos haa] at hs
          injection hs with hs
          subst hs
          exact hl
        · rw [if_neg haa] at hs
          cases hs
    | none =>
        simp only [hl1] at hs
        injection hs with hs
        subst hs
        exact hl
  · intro r a0 hl hba
    unfold registerDeployed
    simp only [hl]
    rw [if_neg (fun hc => hba hc.symm)]
  · intro r a0 hl hba
    unfold registerStandard
    simp only [hl]
    rw [if_neg (fun hc => hba hc.symm)]
  · intro r r2 n2 a2 hwf hfresh h
    exact registerDeployed_wf r r2 n2 a2 hwf hfresh h
  · intro r r2 n2 a2 hwf hfresh h
    exact registerStandard_wf r r2 n2 a2 hwf hfresh h

/-- Witness for C6: after deploying Token at address 1, registering the
same name Token at address 2 in the standard namespace succeeds. -/
theorem registry_namespace_independence_witness :
    ∃ r2, registerStandard
        { contractAddresses := [("Token", 1)], contractNames := [(1, "Token")],
          stdContractAddresses := [], stdContractNames := [] } "Token" 2
      = Except.ok r2 :=
  (registry_namespace_independence "Token" 1 2).2.1 Registry.empty
    { contractAddresses := [("Token", 1)], contractNames := [(1, "Token")],
      stdContractAddresses := [], stdContractNames := [] } rfl rfl

/-- C7: calling mine() from Idle appends exactly one block-boundary
marker record, leaves the registry bindings and the ledger state
(allocator and balances) unchanged, and fires the miningStarted and
miningComplete notifications exactly once each. -/
theorem mine_appends_block_marker (m : ClientModel)
    (h : m.state = RunState.Idle) :
    m.mine.1.records
      = m.records ++
          [{ RecordLogEntry.mkDefault with
               type := RecordType.Block,
               recordIndex := m.records.length }] ∧
    m.mine.1.records.length = m.records.length + 1 ∧
    m.mine.1.registry = m.registry ∧
    m.mine.1.nextAddress = m.nextAddress ∧
    m.mine.1.balances = m.balances ∧
    m.mine.2.count Event.miningStarted = 1 ∧
    m.mine.2.count Event.miningComplete = 1 := by
  simp [ClientModel.mine, h, recordAppend, List.count_cons, List.count_nil]

/-- Witness for C7: mining on the freshly constructed controller. -/
theorem mine_appends_block_marker_witness :
    ClientModel.initial.mine.1.records
      = ClientModel.initial.records ++
          [{ RecordLogEntry.mkDefault with
               type := RecordType.Block,
               recordIndex := ClientModel.initial.records.length }] ∧
    ClientModel.initial.mine.1.records.length
      = ClientModel.initial.records.length + 1 ∧
    ClientModel.initial.mine.1.registry = ClientModel.initial.registry ∧
    ClientModel.initial.mine.1.nextAddress = ClientModel.initial.nextAddress ∧
    ClientModel.initial.mine.1.balances = ClientModel.initial.balances ∧
    ClientModel.initial.mine.2.count Event.miningStarted = 1 ∧
    ClientModel.initial.mine.2.count Event.miningComplete = 1 :=
  mine_appends_block_marker ClientModel.initial rfl
